import Mathlib

/-!
Shallow embedding of `src/pr32_websocket_link/websocket_server.js`
(the per-connection session state machine of the WebSocket game server).

Modelling choices, all traceable to the source:

* One connection is modelled.  All session state in the source is stored in
  the per-`ws` record of the `clients` map (lines 56-65); connections do not
  share session state, so each claim is a statement about one connection's
  record and its event handlers.
* Node timers are modelled explicitly: `setTimeout` allocates a fresh timer
  id (a counter) and adds it to the set of pending timers; `clearTimeout`
  removes an id; a timer-fire event runs its callback only if the id is
  still pending (and consumes it), exactly Node's guarantee that a cleared
  timeout never fires.
* Two models are given.  The first treats each `ws.on(...)` handler as
  one event-loop turn in which the `await movementsCollection.insertOne(...)`
  (line 194) completes immediately; it is exact for everything the handler
  decides before that `await` (parsing, the session open, the position
  writes at lines 176-178, the unknown-command and collection-unavailable
  returns).  The second model (`SysState2`, `step2`) makes the suspension
  explicit: the message handler's synchronous segment ends at the `await`,
  the remainder (insert outcome, reply, clearTimeout/setTimeout, lines
  195-214) runs only when the insert settles, and other events — in
  particular a pending timeout firing — may interleave while the insert is
  outstanding.  It also separates the client-record *object* (still
  referenced by suspended handlers after `clients.delete`) from the map
  membership (`registered`).  Whether an insert resolves or rejects is an
  input, as is the truthiness of `movementsCollection` (line 190).
* `Date.now()` / `new Date()` are an input `now : Nat` of each event.
* Observable effects (`ws.send`, `logger.info/warn/error`, the Mongo
  insert) are collected in an output list in source order.
* The `gameOver` wire message carries the squared Euclidean distance as an
  exact integer; the source sends `Math.sqrt(...)` of that same quantity
  formatted with `toFixed(2)` (lines 83-86, 99), a strictly-monotone
  formatting of the value modelled here.  No claim inspects the distance
  value itself.
-/

namespace WsGame

/-- A grid position, the `{ x, y }` objects of the source. -/
structure Pos where
  x : Int
  y : Int
deriving DecidableEq

/-- The four recognized commands of the `switch` at lines 153-174. -/
inductive Cmd where
  | up
  | down
  | left
  | right
deriving DecidableEq

/-- Result of `JSON.parse` + the `typeof data.command !== 'string'` check
(lines 136-139): the payload is unparseable, parseable without a string
`command` field, or parseable with the given command string. -/
inductive InMsg where
  | unparseable
  | noCommand
  | withCommand (s : String)
deriving DecidableEq

/-- The per-client record created at lines 56-65. -/
structure ClientState where
  clientId : String
  currentGameId : Option String
  startPosition : Option Pos
  currentPosition : Pos
  lastPosition : Option Pos
  lastMoveTime : Option Nat
  inactivityTimer : Option Nat
  gameStartTime : Option Nat
deriving DecidableEq

/-- Log levels used by the server (winston `info` / `warn` / `error`). -/
inductive LogLevel where
  | info
  | warn
  | error
deriving DecidableEq

/-- Outbound wire messages built by `ws.send(JSON.stringify(...))`. -/
inductive OutMsg where
  | initialState (x y : Int)
  | positionUpdate (x y : Int)
  | gameOver (gameId : String) (distSq : Int) (startTime : Option Nat) (endTime : Nat)
  | errorMsg (message : String)
deriving DecidableEq

/-- The `movementData` document inserted at lines 180-194. -/
structure MovementRecord where
  gameId : Option String
  clientId : String
  command : Cmd
  x : Int
  y : Int
  timestamp : Nat
deriving DecidableEq

/-- One observable effect: a websocket send, a log line, or a durable
move-event insert. -/
inductive Output where
  | send (m : OutMsg)
  | log (lvl : LogLevel) (msg : String)
  | persist (rec : MovementRecord)
deriving DecidableEq

/-- Whole-connection system state: the client record (`none` after
`clients.delete(ws)`), the ids of pending (armed, not yet fired or
cleared) timeouts, and the fresh-id counter for `setTimeout`. -/
structure SysState where
  client : Option ClientState
  pending : List Nat
  nextTimer : Nat
deriving DecidableEq

/-- Events delivered to this connection by the runtime: an inbound message
(with the environment of that turn: collection truthiness, insert outcome,
clock), a timeout firing, socket close, socket error. -/
inductive Event where
  | message (m : InMsg) (dbReady : Bool) (insertOk : Bool) (now : Nat)
  | fire (t : Nat) (now : Nat)
  | close
  | wsError
deriving DecidableEq

/-- `clearTimeout`: remove a (possibly absent) timer id from the pending
set; `clearTimeout(null)` is a no-op, as in Node. -/
def clearTimer (pending : List Nat) : Option Nat → List Nat
  | none => pending
  | some t => pending.filter (fun u => u != t)

/-- The `switch (command)` recognition (lines 153-165): which of the four
tokens a command string is, if any. -/
def parseCmd (s : String) : Option Cmd :=
  if s = "up" then some Cmd.up
  else if s = "down" then some Cmd.down
  else if s = "left" then some Cmd.left
  else if s = "right" then some Cmd.right
  else none

/-- Canonical wire token of a command. -/
def cmdToken : Cmd → String
  | Cmd.up => "up"
  | Cmd.down => "down"
  | Cmd.left => "left"
  | Cmd.right => "right"

/-- The unit step of the `switch` (lines 154-165): up y+1, down y-1,
left x-1, right x+1. -/
def applyCmd (p : Pos) : Cmd → Pos
  | Cmd.up => { p with y := p.y + 1 }
  | Cmd.down => { p with y := p.y - 1 }
  | Cmd.left => { p with x := p.x - 1 }
  | Cmd.right => { p with x := p.x + 1 }

/-- The x component of a command's unit step. -/
def deltaX (c : Cmd) : Int := ((applyCmd { x := 0, y := 0 } c)).x

/-- The y component of a command's unit step. -/
def deltaY (c : Cmd) : Int := ((applyCmd { x := 0, y := 0 } c)).y

/-- The distance computation and its log line in `endGame`
(lines 81-93): squared Euclidean distance when both `startPosition` and
`lastPosition` are set, otherwise 0; the branch without `startPosition`
logs a warning instead of an info line. -/
def endReport (cs : ClientState) : Int × Output :=
  match cs.startPosition, cs.lastPosition with
  | some sp, some lp =>
      ((lp.x - sp.x) ^ 2 + (lp.y - sp.y) ^ 2,
       Output.log LogLevel.info "Partida finalizada por inactividad")
  | some _, none =>
      (0, Output.log LogLevel.info "Partida finalizada por inactividad justo despues de comenzar")
  | none, _ =>
      (0, Output.log LogLevel.warn "Partida finalizada sin posicion inicial registrada")

/-- The record with every session-scoped field cleared, as written by
lines 107-113 of `endGame`. -/
def clearedClient (cs : ClientState) : ClientState :=
  { cs with
      currentGameId := none
      startPosition := none
      lastPosition := none
      currentPosition := { x := 0, y := 0 }
      lastMoveTime := none
      inactivityTimer := none
      gameStartTime := none }

/-- `endGame` (lines 74-124): return silently if the record is gone or no
game is open; otherwise clear the stored timeout, log the distance report,
send `gameOver` (built from the not-yet-cleared fields), clear every
session field, then send the restorative `positionUpdate` of the cleared
(0,0) position. -/
def endGame (st : SysState) (now : Nat) : SysState × List Output :=
  match st.client with
  | none => (st, [])
  | some cs =>
    match cs.currentGameId with
    | none => (st, [])
    | some gid =>
      let pending1 := clearTimer st.pending cs.inactivityTimer
      let rep := endReport cs
      let cs1 := clearedClient cs
      ({ st with client := some cs1, pending := pending1 },
       [rep.2,
        Output.send (OutMsg.gameOver gid rep.1 cs.gameStartTime now),
        Output.send (OutMsg.positionUpdate cs1.currentPosition.x cs1.currentPosition.y)])

/-- The `setTimeout` callback (lines 211-214): log the inactivity warning,
then run `endGame`. -/
def timerCallback (st : SysState) (now : Nat) : SysState × List Output :=
  let r := endGame st now
  (r.1, Output.log LogLevel.warn "Se detecto inactividad en el cliente" :: r.2)

/-- Delivery of a timeout firing: a cleared or already-fired timer id is
not pending and does nothing at all; a pending id is consumed and its
callback runs. -/
def fireTimer (st : SysState) (t : Nat) (now : Nat) : SysState × List Output :=
  if t ∈ st.pending then
    timerCallback { st with pending := st.pending.filter (fun u => u != t) } now
  else
    (st, [])

/-- The known-command continuation of the message handler
(lines 152-214), entered with the session already opened if it was not
(`cs` is the record after lines 145-150) and `logs` the log lines emitted
so far: apply the move, update `currentPosition` / `lastPosition` /
`lastMoveTime`, then — unless the movements collection is unavailable, in
which case the handler returns right there (lines 190-193) — attempt the
insert (a rejection is caught and logged, line 196), send `positionUpdate`,
and finally clear-then-rearm the inactivity timeout (lines 210-214). -/
def acceptMove (st : SysState) (cs : ClientState) (c : Cmd) (dbReady insertOk : Bool)
    (now : Nat) (logs : List Output) : SysState × List Output :=
  let newPos := applyCmd cs.currentPosition c
  let cs1 := { cs with currentPosition := newPos, lastPosition := some newPos,
                       lastMoveTime := some now }
  if dbReady then
    let rec0 : MovementRecord :=
      { gameId := cs1.currentGameId, clientId := cs1.clientId, command := c,
        x := newPos.x, y := newPos.y, timestamp := now }
    let persistOut :=
      if insertOk then [Output.persist rec0]
      else [Output.log LogLevel.error "Error al guardar el movimiento en la base de datos"]
    let pending1 := clearTimer st.pending cs1.inactivityTimer
    let tid := st.nextTimer
    let cs2 := { cs1 with inactivityTimer := some tid }
    ({ client := some cs2, pending := pending1 ++ [tid], nextTimer := st.nextTimer + 1 },
     logs ++ persistOut ++
       [Output.send (OutMsg.positionUpdate newPos.x newPos.y),
        Output.log LogLevel.info "Posicion actualizada enviada al cliente"])
  else
    ({ st with client := some cs1 },
     logs ++ [Output.log LogLevel.error "coleccion de movimientos no inicializada"])

/-- The body of `ws.on('message')` (lines 126-224).  An unregistered
client only logs (lines 128-131).  A parse failure or a non-string
`command` throws into the catch block (lines 216-223): one error log and
one `error` reply, no state change.  Otherwise the session is opened
*before* the command token is examined (lines 145-150); an unrecognized
token then logs a warning, sends an `error` reply and returns (lines
166-173), keeping whatever the open step wrote; a recognized token
proceeds to `acceptMove`. -/
def onMessage (st : SysState) (m : InMsg) (dbReady insertOk : Bool) (now : Nat) :
    SysState × List Output :=
  match st.client with
  | none => (st, [Output.log LogLevel.error "mensaje de un cliente no registrado"])
  | some cs =>
    match m with
    | InMsg.unparseable =>
        (st, [Output.log LogLevel.error "Error procesando el mensaje del cliente",
              Output.send (OutMsg.errorMsg "Ocurrio un error procesando tu comando.")])
    | InMsg.noCommand =>
        (st, [Output.log LogLevel.error "Error procesando el mensaje del cliente",
              Output.send (OutMsg.errorMsg "Ocurrio un error procesando tu comando.")])
    | InMsg.withCommand s =>
      let recvLog := Output.log LogLevel.info "Comando recibido de cliente"
      let opened :=
        match cs.currentGameId with
        | none =>
            ({ cs with
                 currentGameId := some ("G_" ++ toString now ++ "_" ++ cs.clientId.take 4),
                 startPosition := some cs.currentPosition,
                 gameStartTime := some now },
             [recvLog, Output.log LogLevel.info "Inicio de nueva partida"])
        | some _ => (cs, [recvLog])
      let cs1 := opened.1
      let logs := opened.2
      match parseCmd s with
      | none =>
          ({ st with client := some cs1 },
           logs ++
             [Output.log LogLevel.warn "Comando no reconocido recibido del cliente",
              Output.send (OutMsg.errorMsg ("Comando no reconocido: " ++ s))])
      | some c => acceptMove st cs1 c dbReady insertOk now logs

/-- `ws.on('close')` (lines 226-237): clear the stored timeout if set,
remove the record; log only. -/
def onClose (st : SysState) : SysState × List Output :=
  match st.client with
  | none => (st, [Output.log LogLevel.warn "Un cliente no registrado se ha desconectado"])
  | some cs =>
      ({ st with client := none, pending := clearTimer st.pending cs.inactivityTimer },
       [Output.log LogLevel.info "Cliente desconectado"])

/-- `ws.on('error')` (lines 239-249): log the error, clear the stored
timeout if set, remove the record. -/
def onWsError (st : SysState) : SysState × List Output :=
  match st.client with
  | none => (st, [Output.log LogLevel.error "Error en WebSocket del cliente"])
  | some cs =>
      ({ st with client := none, pending := clearTimer st.pending cs.inactivityTimer },
       [Output.log LogLevel.error "Error en WebSocket del cliente"])

/-- One event-loop turn for this connection. -/
def step (st : SysState) : Event → SysState × List Output
  | Event.message m dbReady insertOk now => onMessage st m dbReady insertOk now
  | Event.fire t now => fireTimer st t now
  | Event.close => onClose st
  | Event.wsError => onWsError st

/-- Run a list of events, accumulating outputs. -/
def runEvents (st : SysState) : List Event → SysState × List Output
  | [] => (st, [])
  | e :: es =>
    let r := step st e
    let r2 := runEvents r.1 es
    (r2.1, r.2 ++ r2.2)

/-- The fresh record of `wss.on('connection')` (lines 56-65) together with
the `initialState` push (lines 67-72). -/
def connect (cId : String) : SysState × List Output :=
  ({ client := some
       { clientId := cId, currentGameId := none, startPosition := none,
         currentPosition := { x := 0, y := 0 }, lastPosition := none,
         lastMoveTime := none, inactivityTimer := none, gameStartTime := none },
     pending := [], nextTimer := 0 },
   [Output.log LogLevel.info "Nuevo cliente conectado",
    Output.send (OutMsg.initialState 0 0)])

/-- Just the wire messages among a turn's outputs. -/
def sends (l : List Output) : List OutMsg :=
  l.filterMap fun o =>
    match o with
    | Output.send m => some m
    | _ => none

/-- Just the persisted move-event records among a turn's outputs. -/
def persists (l : List Output) : List MovementRecord :=
  l.filterMap fun o =>
    match o with
    | Output.persist r => some r
    | _ => none

/-- Whether an output is a log line at warning level or above. -/
def isWarnOrAbove : Output → Bool
  | Output.log LogLevel.warn _ => true
  | Output.log LogLevel.error _ => true
  | _ => false

/-- Whether a wire message is a `gameOver` summary. -/
def isGameOver : OutMsg → Bool
  | OutMsg.gameOver _ _ _ _ => true
  | _ => false

/-- The timer id stored in the client record, as a list (empty when the
record is gone or no timer is stored). -/
def storedTimer (st : SysState) : List Nat :=
  match st.client with
  | some cs => cs.inactivityTimer.toList
  | none => []

/-- Whether a stored timer can only exist alongside an open game. -/
def timerImpliesGame (st : SysState) : Bool :=
  match st.client with
  | some cs => !cs.inactivityTimer.isSome || cs.currentGameId.isSome
  | none => true

/-- Timer bookkeeping invariant of reachable states: pending timeout ids
are exactly the (at most one) id stored in the record's
`inactivityTimer`; every pending id is below the fresh counter; and a
stored timer implies an open game. -/
def timerInv (st : SysState) : Prop :=
  (∀ t ∈ st.pending, t < st.nextTimer) ∧
  st.pending = storedTimer st ∧
  timerImpliesGame st = true

/-- A concrete mid-session client record used to instantiate theorems. -/
def sampleClient : ClientState :=
  { clientId := "abcd-efgh"
    currentGameId := some "G_3_abcd"
    startPosition := some { x := 1, y := 2 }
    currentPosition := { x := 3, y := 4 }
    lastPosition := some { x := 3, y := 4 }
    lastMoveTime := some 7
    inactivityTimer := some 0
    gameStartTime := some 3 }

/-- A concrete mid-session system state (one armed timeout, id 0). -/
def sampleActive : SysState :=
  { client := some sampleClient, pending := [0], nextTimer := 1 }

/-- A concrete freshly-connected (idle) system state. -/
def sampleIdle : SysState := (connect "abcd-efgh").1

theorem mem_clearTimer {pending : List Nat} {o : Option Nat} {t : Nat}
    (h : t ∈ clearTimer pending o) : t ∈ pending := by
  cases o with
  | none => exact h
  | some u => exact (List.mem_filter.mp h).1

theorem not_mem_clearTimer_self {pending : List Nat} {t : Nat} :
    t ∉ clearTimer pending (some t) := by
  intro h
  have := (List.mem_filter.mp h).2
  simp at this

theorem parseCmd_cmdToken (c : Cmd) : parseCmd (cmdToken c) = some c := by
  cases c <;> rfl

theorem applyCmd_coords (p : Pos) (c : Cmd) :
    applyCmd p c = { x := p.x + deltaX c, y := p.y + deltaY c } := by
  cases c <;> simp [applyCmd, deltaX, deltaY] <;> omega

theorem onMessage_accepted_client (st : SysState) (cs : ClientState) (s : String) (c : Cmd)
    (dbReady insertOk : Bool) (now : Nat)
    (hc : st.client = some cs) (hp : parseCmd s = some c) :
    ∃ cs1, (onMessage st (InMsg.withCommand s) dbReady insertOk now).1.client = some cs1 ∧
      cs1.currentPosition = applyCmd cs.currentPosition c := by
  cases hg : cs.currentGameId <;> cases dbReady <;>
    simp [onMessage, hc, hg, hp, acceptMove]

/-- C9: an unparseable payload, or one without a string `command` field,
throws into the catch block before any state is touched: the system state
is returned unchanged, the only wire message is one `error` reply, and no
move-event record is persisted. -/
theorem malformedMessageOnlyError (st : SysState) (cs : ClientState) (m : InMsg)
    (dbReady insertOk : Bool) (now : Nat)
    (hc : st.client = some cs) (hm : m = InMsg.unparseable ∨ m = InMsg.noCommand) :
    (onMessage st m dbReady insertOk now).1 = st ∧
    sends (onMessage st m dbReady insertOk now).2 =
      [OutMsg.errorMsg "Ocurrio un error procesando tu comando."] ∧
    persists (onMessage st m dbReady insertOk now).2 = [] := by
  rcases hm with rfl | rfl <;> simp [onMessage, hc, sends, persists]

/-- Witness for `malformedMessageOnlyError` at a concrete idle state. -/
theorem malformedMessageOnlyError_w :
    (onMessage sampleIdle InMsg.unparseable true true 5).1 = sampleIdle ∧
    sends (onMessage sampleIdle InMsg.unparseable true true 5).2 =
      [OutMsg.errorMsg "Ocurrio un error procesando tu comando."] ∧
    persists (onMessage sampleIdle InMsg.unparseable true true 5).2 = [] :=
  malformedMessageOnlyError sampleIdle ((connect "abcd-efgh").1.client.get rfl)
    InMsg.unparseable true true 5 rfl (Or.inl rfl)

/-- A finite sequence of accepted commands, each delivered as a message
event in its own environment (collection truthiness, insert outcome,
clock). -/
def moveEvents (l : List (Cmd × Bool × Bool × Nat)) : List Event :=
  l.map fun q => Event.message (InMsg.withCommand (cmdToken q.1)) q.2.1 q.2.2.1 q.2.2.2

/-- C3: over any finite sequence of accepted commands and any
persistence environments, with no intervening timeout, the final
`currentPosition` is the position preceding the sequence plus the vector
sum of the unit steps (up (0,+1), down (0,-1), left (-1,0),
right (+1,0)), applied in order. -/
theorem positionIsVectorSum (st : SysState) (cs : ClientState)
    (l : List (Cmd × Bool × Bool × Nat)) (hc : st.client = some cs) :
    ∃ cs1, (runEvents st (moveEvents l)).1.client = some cs1 ∧
      cs1.currentPosition.x = cs.currentPosition.x + (l.map (fun q => deltaX q.1)).sum ∧
      cs1.currentPosition.y = cs.currentPosition.y + (l.map (fun q => deltaY q.1)).sum := by
  induction l generalizing st cs with
  | nil =>
      refine ⟨cs, ?_, by simp, by simp⟩
      simpa [runEvents, moveEvents] using hc
  | cons q rest ih =>
      obtain ⟨cs1, hcs1, hpos⟩ :=
        onMessage_accepted_client st cs (cmdToken q.1) q.1 q.2.1 q.2.2.1 q.2.2.2 hc
          (parseCmd_cmdToken q.1)
      obtain ⟨cs2, hcs2, hx, hy⟩ :=
        ih (onMessage st (InMsg.withCommand (cmdToken q.1)) q.2.1 q.2.2.1 q.2.2.2).1 cs1 hcs1
      refine ⟨cs2, ?_, ?_, ?_⟩
      · simpa [runEvents, moveEvents, step] using hcs2
      · rw [hx, hpos, applyCmd_coords]
        simp
        omega
      · rw [hy, hpos, applyCmd_coords]
        simp
        omega

/-- Witness for `positionIsVectorSum` on the sequence right, right, up
from the sample mid-session state at (3,4). -/
theorem positionIsVectorSum_w :
    ∃ cs1,
      (runEvents sampleActive
        (moveEvents [(Cmd.right, true, true, 8), (Cmd.right, true, true, 9),
                     (Cmd.up, true, true, 10)])).1.client = some cs1 ∧
      cs1.currentPosition.x = (3 : Int) + 2 ∧
      cs1.currentPosition.y = (4 : Int) + 1 := by
  have h := positionIsVectorSum sampleActive sampleClient
    [(Cmd.right, true, true, 8), (Cmd.right, true, true, 9), (Cmd.up, true, true, 10)] rfl
  simpa [sampleClient, deltaX, deltaY, applyCmd] using h

/-- C10: while a game is already open, an accepted move leaves
`currentGameId`, `startPosition`, `gameStartTime` (and `clientId`)
unchanged; the move writes only `currentPosition`, `lastPosition`,
`lastMoveTime` and (when the collection is available) the inactivity
timer. -/
theorem activeMoveFrame (st : SysState) (cs : ClientState) (gid : String) (s : String)
    (c : Cmd) (dbReady insertOk : Bool) (now : Nat)
    (hc : st.client = some cs) (hg : cs.currentGameId = some gid)
    (hp : parseCmd s = some c) :
    ∃ cs1, (onMessage st (InMsg.withCommand s) dbReady insertOk now).1.client = some cs1 ∧
      cs1.currentGameId = some gid ∧
      cs1.startPosition = cs.startPosition ∧
      cs1.gameStartTime = cs.gameStartTime ∧
      cs1.clientId = cs.clientId := by
  cases dbReady <;> simp [onMessage, hc, hg, hp, acceptMove]

/-- Witness for `activeMoveFrame`: an accepted `right` at the sample
mid-session state. -/
theorem activeMoveFrame_w :
    ∃ cs1, (onMessage sampleActive (InMsg.withCommand "right") true true 8).1.client =
        some cs1 ∧
      cs1.currentGameId = some "G_3_abcd" ∧
      cs1.startPosition = sampleClient.startPosition ∧
      cs1.gameStartTime = sampleClient.gameStartTime ∧
      cs1.clientId = sampleClient.clientId :=
  activeMoveFrame sampleActive sampleClient "G_3_abcd" "right" Cmd.right true true 8
    rfl rfl rfl

/-- C8: when the socket closes or errors, whatever the session status, the
client record is removed, any stored deadline id is no longer pending, and
nothing is sent to the client — in particular no `gameOver` summary. -/
theorem abruptCloseNoSummary (st : SysState) (cs : ClientState) (hc : st.client = some cs) :
    ((onClose st).1.client = none ∧ sends (onClose st).2 = [] ∧
      (∀ t, cs.inactivityTimer = some t → t ∉ (onClose st).1.pending)) ∧
    ((onWsError st).1.client = none ∧ sends (onWsError st).2 = [] ∧
      (∀ t, cs.inactivityTimer = some t → t ∉ (onWsError st).1.pending)) := by
  refine ⟨⟨?_, ?_, ?_⟩, ⟨?_, ?_, ?_⟩⟩ <;>
    simp [onClose, onWsError, hc, sends] <;>
    intro t ht <;> rw [ht] <;> exact not_mem_clearTimer_self

/-- Witness for `abruptCloseNoSummary` at the sample mid-session state. -/
theorem abruptCloseNoSummary_w :
    ((onClose sampleActive).1.client = none ∧ sends (onClose sampleActive).2 = [] ∧
      (∀ t, sampleClient.inactivityTimer = some t → t ∉ (onClose sampleActive).1.pending)) ∧
    ((onWsError sampleActive).1.client = none ∧ sends (onWsError sampleActive).2 = [] ∧
      (∀ t, sampleClient.inactivityTimer = some t →
        t ∉ (onWsError sampleActive).1.pending)) :=
  abruptCloseNoSummary sampleActive sampleClient rfl

theorem endReport_snd_log (cs : ClientState) :
    ∃ lvl msg, (endReport cs).2 = Output.log lvl msg := by
  unfold endReport
  rcases cs.startPosition with _ | sp <;> rcases cs.lastPosition with _ | lp <;> simp

/-- C1: a timeout firing on an open session emits exactly the two wire
messages `gameOver` then, immediately after, `positionUpdate {0,0}`; the
`gameOver` payload (game id, distance report, start time) is built from
the record as it stood before the clear, and the post-state record is the
fully cleared one — so the summary is emitted before the fields are
cleared, once per closing. -/
theorem timeoutEmitsGameOverThenReset (st : SysState) (cs : ClientState) (gid : String)
    (t now : Nat) (hc : st.client = some cs) (hg : cs.currentGameId = some gid)
    (ht : t ∈ st.pending) :
    sends (fireTimer st t now).2 =
      [OutMsg.gameOver gid (endReport cs).1 cs.gameStartTime now,
       OutMsg.positionUpdate 0 0] ∧
    (fireTimer st t now).1.client = some (clearedClient cs) := by
  obtain ⟨lvl, msg, he⟩ := endReport_snd_log cs
  simp [fireTimer, ht, timerCallback, endGame, hc, hg, sends, clearedClient, he]

/-- Witness for `timeoutEmitsGameOverThenReset` at the sample state:
distance report (3-1)^2+(4-2)^2 = 8. -/
theorem timeoutEmitsGameOverThenReset_w :
    sends (fireTimer sampleActive 0 20).2 =
      [OutMsg.gameOver "G_3_abcd" (endReport sampleClient).1 sampleClient.gameStartTime 20,
       OutMsg.positionUpdate 0 0] ∧
    (fireTimer sampleActive 0 20).1.client = some (clearedClient sampleClient) :=
  timeoutEmitsGameOverThenReset sampleActive sampleClient "G_3_abcd" 0 20 rfl rfl
    (by simp [sampleActive])

/-- C5 counterexample: the source opens the session (lines 145-150)
*before* the `switch` examines the command token, so a well-formed but
unrecognized command (`jump`) received while idle DOES modify the client
record: `currentGameId` goes from `none` to a fresh game id.  This
falsifies the claim that such a message "changes no session state" and
that "no session is opened". -/
theorem unknownCommandOpensSession_cex :
    sampleIdle.client.map ClientState.currentGameId = some none ∧
    (onMessage sampleIdle (InMsg.withCommand "jump") true true 5).1.client.map
        ClientState.currentGameId = some (some "G_5_abcd") := by
  constructor <;> rfl

/-- C5 as amended: a well-formed unknown command yields exactly one
`error` reply, persists nothing, never touches `currentPosition`,
`lastPosition`, `lastMoveTime`, the stored timer or the pending timeout
set; with a game already open the record is completely unchanged; while
idle, however, the handler has already opened a session: `currentGameId`,
`startPosition` (a copy of the current position) and `gameStartTime` are
set. -/
theorem unknownCommandEffects (st : SysState) (cs : ClientState) (s : String)
    (dbReady insertOk : Bool) (now : Nat)
    (hc : st.client = some cs) (hp : parseCmd s = none) :
    sends (onMessage st (InMsg.withCommand s) dbReady insertOk now).2 =
      [OutMsg.errorMsg ("Comando no reconocido: " ++ s)] ∧
    persists (onMessage st (InMsg.withCommand s) dbReady insertOk now).2 = [] ∧
    (onMessage st (InMsg.withCommand s) dbReady insertOk now).1.pending = st.pending ∧
    (onMessage st (InMsg.withCommand s) dbReady insertOk now).1.nextTimer = st.nextTimer ∧
    (∃ cs1, (onMessage st (InMsg.withCommand s) dbReady insertOk now).1.client = some cs1 ∧
       cs1.currentPosition = cs.currentPosition ∧
       cs1.lastPosition = cs.lastPosition ∧
       cs1.lastMoveTime = cs.lastMoveTime ∧
       cs1.inactivityTimer = cs.inactivityTimer ∧
       (∀ gid, cs.currentGameId = some gid → cs1 = cs) ∧
       (cs.currentGameId = none →
          cs1.currentGameId = some ("G_" ++ toString now ++ "_" ++ cs.clientId.take 4) ∧
          cs1.startPosition = some cs.currentPosition ∧
          cs1.gameStartTime = some now)) := by
  cases hg : cs.currentGameId <;>
    simp [onMessage, hc, hg, hp, sends, persists]

/-- Witness for `unknownCommandEffects`: `jump` at the sample mid-session
state. -/
theorem unknownCommandEffects_w :
    sends (onMessage sampleActive (InMsg.withCommand "jump") true true 5).2 =
      [OutMsg.errorMsg ("Comando no reconocido: " ++ "jump")] ∧
    persists (onMessage sampleActive (InMsg.withCommand "jump") true true 5).2 = [] ∧
    (onMessage sampleActive (InMsg.withCommand "jump") true true 5).1.pending =
      sampleActive.pending ∧
    (onMessage sampleActive (InMsg.withCommand "jump") true true 5).1.nextTimer =
      sampleActive.nextTimer ∧
    (∃ cs1, (onMessage sampleActive (InMsg.withCommand "jump") true true 5).1.client =
        some cs1 ∧
       cs1.currentPosition = sampleClient.currentPosition ∧
       cs1.lastPosition = sampleClient.lastPosition ∧
       cs1.lastMoveTime = sampleClient.lastMoveTime ∧
       cs1.inactivityTimer = sampleClient.inactivityTimer ∧
       (∀ gid, sampleClient.currentGameId = some gid → cs1 = sampleClient) ∧
       (sampleClient.currentGameId = none →
          cs1.currentGameId =
            some ("G_" ++ toString 5 ++ "_" ++ sampleClient.clientId.take 4) ∧
          cs1.startPosition = some sampleClient.currentPosition ∧
          cs1.gameStartTime = some 5)) :=
  unknownCommandEffects sampleActive sampleClient "jump" true true 5 rfl rfl

/-- C6 counterexample: when the movements collection is unavailable the
handler returns at lines 190-193 *before* sending `positionUpdate` and
before touching the timer.  At the sample mid-session state, an accepted
`up` with the collection down is applied to the position (so the command
was accepted), yet nothing at all is sent and the old deadline (id 0) is
still the one pending — the claim that a persistence-step failure never
prevents the reply or the rearm is false. -/
theorem dbUnavailableSkipsReply_cex :
    sends (onMessage sampleActive (InMsg.withCommand "up") false true 9).2 = [] ∧
    (onMessage sampleActive (InMsg.withCommand "up") false true 9).1.pending = [0] ∧
    (onMessage sampleActive (InMsg.withCommand "up") false true 9).1.client.map
        ClientState.inactivityTimer = some (some 0) ∧
    (onMessage sampleActive (InMsg.withCommand "up") false true 9).1.client.map
        ClientState.currentPosition = some { x := 3, y := 5 } := by
  refine ⟨rfl, rfl, rfl, rfl⟩

/-- C6 as amended: a failure of the durable write itself (the insert
rejecting, collection available) is caught and logged at lines 195-197
and never prevents the `positionUpdate` reply nor the clear-and-rearm of
the inactivity deadline; but an *unavailable collection* aborts the
handler after the move is applied, skipping both the reply and the
rearm. -/
theorem insertFailureStillReplies (st : SysState) (cs : ClientState) (s : String)
    (c : Cmd) (insertOk : Bool) (now : Nat)
    (hc : st.client = some cs) (hp : parseCmd s = some c) :
    sends (onMessage st (InMsg.withCommand s) true insertOk now).2 =
      [OutMsg.positionUpdate (applyCmd cs.currentPosition c).x
         (applyCmd cs.currentPosition c).y] ∧
    (∃ cs1, (onMessage st (InMsg.withCommand s) true insertOk now).1.client = some cs1 ∧
       cs1.inactivityTimer = some st.nextTimer) ∧
    (onMessage st (InMsg.withCommand s) true insertOk now).1.pending =
      clearTimer st.pending cs.inactivityTimer ++ [st.nextTimer] ∧
    (onMessage st (InMsg.withCommand s) true insertOk now).1.nextTimer = st.nextTimer + 1 ∧
    (insertOk = false → persists (onMessage st (InMsg.withCommand s) true insertOk now).2 = []) := by
  cases hg : cs.currentGameId <;> cases insertOk <;>
    simp [onMessage, hc, hg, hp, acceptMove, sends, persists]

/-- Witness for `insertFailureStillReplies`: a rejected insert at the
sample mid-session state still yields the `positionUpdate (3,5)` reply
and a fresh deadline (id 1) replacing the old one (id 0). -/
theorem insertFailureStillReplies_w :
    sends (onMessage sampleActive (InMsg.withCommand "up") true false 9).2 =
      [OutMsg.positionUpdate (applyCmd sampleClient.currentPosition Cmd.up).x
         (applyCmd sampleClient.currentPosition Cmd.up).y] ∧
    (∃ cs1, (onMessage sampleActive (InMsg.withCommand "up") true false 9).1.client =
        some cs1 ∧ cs1.inactivityTimer = some sampleActive.nextTimer) ∧
    (onMessage sampleActive (InMsg.withCommand "up") true false 9).1.pending =
      clearTimer sampleActive.pending sampleClient.inactivityTimer ++
        [sampleActive.nextTimer] ∧
    (onMessage sampleActive (InMsg.withCommand "up") true false 9).1.nextTimer =
      sampleActive.nextTimer + 1 ∧
    (false = false →
      persists (onMessage sampleActive (InMsg.withCommand "up") true false 9).2 = []) :=
  insertFailureStillReplies sampleActive sampleClient "up" Cmd.up false 9 rfl rfl

/-- A concrete state whose session is closed (`currentGameId = none`)
while a timeout (id 3) is still, hypothetically, pending — the situation
C7 describes. -/
def staleFireState : SysState :=
  { client := some (clearedClient sampleClient), pending := [3], nextTimer := 4 }

/-- C7 counterexample: the `setTimeout` callback at lines 211-214 logs
`logger.warn('Se detectó inactividad...')` *before* calling `endGame`,
whose `!clientState.currentGameId` guard then returns silently.  A firing
on a closed session therefore does emit a warning-level log line,
falsifying "nothing is logged at warning level or above". -/
theorem staleFireLogsWarning_cex :
    staleFireState.client.map ClientState.currentGameId = some none ∧
    (fireTimer staleFireState 3 9).2.any isWarnOrAbove = true := by
  refine ⟨rfl, rfl⟩

/-- C7 as amended: a timeout firing on a connection whose session is
already closed, or whose record has been removed, sends no wire message
and leaves the client record untouched (the firing only consumes the
timer id), but it is not fully silent: the callback logs exactly one
warning before `endGame`'s guard returns. -/
theorem staleFireSilentExceptWarn (st : SysState) (t now : Nat)
    (h : st.client = none ∨ ∃ cs, st.client = some cs ∧ cs.currentGameId = none) :
    (fireTimer st t now).1.client = st.client ∧
    sends (fireTimer st t now).2 = [] ∧
    (fireTimer st t now).2 =
      (if t ∈ st.pending then
        [Output.log LogLevel.warn "Se detecto inactividad en el cliente"]
       else []) := by
  by_cases hm : t ∈ st.pending
  · rcases h with hn | ⟨cs, hc, hg⟩
    · simp [fireTimer, hm, timerCallback, endGame, hn, sends]
    · simp [fireTimer, hm, timerCallback, endGame, hc, hg, sends]
  · simp [fireTimer, hm, sends]

/-- Witness for `staleFireSilentExceptWarn` at the concrete closed-session
state with a pending id. -/
theorem staleFireSilentExceptWarn_w :
    (fireTimer staleFireState 3 9).1.client = staleFireState.client ∧
    sends (fireTimer staleFireState 3 9).2 = [] ∧
    (fireTimer staleFireState 3 9).2 =
      (if 3 ∈ staleFireState.pending then
        [Output.log LogLevel.warn "Se detecto inactividad en el cliente"]
       else []) :=
  staleFireSilentExceptWarn staleFireState 3 9
    (Or.inr ⟨clearedClient sampleClient, rfl, rfl⟩)

/-- C4: (1) the first accepted command while idle captures
`startPosition` as a copy of the carried-over `currentPosition` (lines
146-148) and the move itself is applied to that same prior value; (2)
across every event, as long as the record survives, `currentPosition`
either is untouched, or advances by exactly one unit step of a command,
or — only on a timeout firing with a game open — is reset to (0,0). -/
theorem openPreservesPositionOnlyTimeoutResets :
    (∀ st cs s c dbReady insertOk now,
       st.client = some cs → cs.currentGameId = none → parseCmd s = some c →
       ∃ cs1, (onMessage st (InMsg.withCommand s) dbReady insertOk now).1.client = some cs1 ∧
         cs1.startPosition = some cs.currentPosition ∧
         cs1.currentPosition = applyCmd cs.currentPosition c) ∧
    (∀ st cs e cs1, st.client = some cs → (step st e).1.client = some cs1 →
       cs1.currentPosition = cs.currentPosition ∨
       (∃ c, cs1.currentPosition = applyCmd cs.currentPosition c) ∨
       (∃ t now, e = Event.fire t now ∧ cs.currentGameId.isSome = true ∧
          cs1.currentPosition = { x := 0, y := 0 })) := by
  constructor
  · intro st cs s c dbReady insertOk now hc hg hp
    cases dbReady <;> simp [onMessage, hc, hg, hp, acceptMove]
  · intro st cs e cs1 hc h1
    cases e with
    | message m dbReady insertOk now =>
      cases m with
      | unparseable =>
          simp [step, onMessage, hc] at h1
          exact Or.inl (by rw [h1])
      | noCommand =>
          simp [step, onMessage, hc] at h1
          exact Or.inl (by rw [h1])
      | withCommand s =>
          cases hg : cs.currentGameId with
          | none =>
            cases hp : parseCmd s with
            | none =>
                simp [step, onMessage, hc, hg, hp] at h1
                exact Or.inl (by rw [← h1])
            | some c =>
                cases dbReady <;>
                  simp [step, onMessage, hc, hg, hp, acceptMove] at h1 <;>
                  exact Or.inr (Or.inl ⟨c, by rw [← h1]⟩)
          | some gid =>
            cases hp : parseCmd s with
            | none =>
                simp [step, onMessage, hc, hg, hp] at h1
                exact Or.inl (by rw [← h1])
            | some c =>
                cases dbReady <;>
                  simp [step, onMessage, hc, hg, hp, acceptMove] at h1 <;>
                  exact Or.inr (Or.inl ⟨c, by rw [← h1]⟩)
    | fire t now =>
      by_cases hm : t ∈ st.pending
      · cases hg : cs.currentGameId with
        | none =>
            simp [step, fireTimer, hm, timerCallback, endGame, hc, hg] at h1
            exact Or.inl (by rw [h1])
        | some gid =>
            simp [step, fireTimer, hm, timerCallback, endGame, hc, hg, clearedClient] at h1
            exact Or.inr (Or.inr ⟨t, now, rfl, by simp [hg], by rw [← h1]⟩)
      · simp [step, fireTimer, hm, hc] at h1
        exact Or.inl (by rw [h1])
    | close =>
      simp [step, onClose, hc] at h1
    | wsError =>
      simp [step, onWsError, hc] at h1

/-- Witness for `openPreservesPositionOnlyTimeoutResets`: opening with
`right` from the idle state at (0,0). -/
theorem openPreservesPositionOnlyTimeoutResets_w :
    ∃ cs1, (onMessage sampleIdle (InMsg.withCommand "right") true true 5).1.client =
        some cs1 ∧
      cs1.startPosition = some { x := 0, y := 0 } ∧
      cs1.currentPosition = applyCmd { x := 0, y := 0 } Cmd.right :=
  openPreservesPositionOnlyTimeoutResets.1 sampleIdle
    ((connect "abcd-efgh").1.client.get rfl) "right" Cmd.right true true 5 rfl rfl rfl

theorem clearTimer_toList (o : Option Nat) : clearTimer o.toList o = [] := by
  cases o <;> simp [clearTimer]

theorem toList_mem_eq {o : Option Nat} {t : Nat} (h : t ∈ o.toList) : o = some t := by
  cases o with
  | none => simp at h
  | some u => simp at h; rw [h]

theorem endGame_pending_subset {st : SysState} {now t : Nat}
    (h : t ∈ (endGame st now).1.pending) : t ∈ st.pending := by
  unfold endGame at h
  cases hcl : st.client with
  | none => simp [hcl] at h; exact h
  | some cs =>
    cases hg : cs.currentGameId with
    | none => simp [hcl, hg] at h; exact h
    | some gid =>
      simp [hcl, hg] at h
      exact mem_clearTimer h

theorem endGame_nextTimer (st : SysState) (now : Nat) :
    (endGame st now).1.nextTimer = st.nextTimer := by
  unfold endGame
  cases hcl : st.client with
  | none => rfl
  | some cs => cases hg : cs.currentGameId <;> simp [hcl, hg]

theorem fireTimer_pending_subset {st : SysState} {u now t : Nat}
    (h : t ∈ (fireTimer st u now).1.pending) : t ∈ st.pending := by
  unfold fireTimer at h
  by_cases hm : u ∈ st.pending
  · simp only [hm, if_true, timerCallback] at h
    have h2 := endGame_pending_subset h
    exact (List.mem_filter.mp h2).1
  · simp only [hm, if_false] at h
    exact h

theorem timerInv_step (st : SysState) (e : Event) (h : timerInv st) :
    timerInv (step st e).1 := by
  obtain ⟨hfresh, hpend, himp⟩ := h
  cases e with
  | message m dbReady insertOk now =>
    cases hcl : st.client with
    | none =>
      simp only [step, onMessage, hcl]
      exact ⟨hfresh, hpend, himp⟩
    | some cs =>
      have hpend2 : st.pending = cs.inactivityTimer.toList := by
        rw [hpend]; simp [storedTimer, hcl]
      cases m with
      | unparseable =>
        simp only [step, onMessage, hcl]
        exact ⟨hfresh, hpend, himp⟩
      | noCommand =>
        simp only [step, onMessage, hcl]
        exact ⟨hfresh, hpend, himp⟩
      | withCommand s =>
        cases hg : cs.currentGameId with
        | none =>
          cases hp : parseCmd s with
          | none =>
            refine ⟨?_, ?_, ?_⟩
            · simpa [step, onMessage, hcl, hg, hp] using hfresh
            · simp [step, onMessage, hcl, hg, hp, storedTimer, hpend2]
            · simp [step, onMessage, hcl, hg, hp, timerImpliesGame]
          | some c =>
            cases dbReady with
            | false =>
              refine ⟨?_, ?_, ?_⟩
              · simpa [step, onMessage, hcl, hg, hp, acceptMove] using hfresh
              · simp [step, onMessage, hcl, hg, hp, acceptMove, storedTimer, hpend2]
              · simp [step, onMessage, hcl, hg, hp, acceptMove, timerImpliesGame]
            | true =>
              refine ⟨?_, ?_, ?_⟩
              · intro u hu
                simp [step, onMessage, hcl, hg, hp, acceptMove] at hu ⊢
                rcases hu with h1 | h1
                · have := hfresh u (mem_clearTimer h1)
                  omega
                · omega
              · simp [step, onMessage, hcl, hg, hp, acceptMove, storedTimer, hpend2,
                      clearTimer_toList]
              · simp [step, onMessage, hcl, hg, hp, acceptMove, timerImpliesGame]
        | some gid =>
          cases hp : parseCmd s with
          | none =>
            refine ⟨?_, ?_, ?_⟩
            · simpa [step, onMessage, hcl, hg, hp] using hfresh
            · simp [step, onMessage, hcl, hg, hp, storedTimer, hpend2]
            · simp [step, onMessage, hcl, hg, hp, timerImpliesGame]
          | some c =>
            cases dbReady with
            | false =>
              refine ⟨?_, ?_, ?_⟩
              · simpa [step, onMessage, hcl, hg, hp, acceptMove] using hfresh
              · simp [step, onMessage, hcl, hg, hp, acceptMove, storedTimer, hpend2]
              · simp [step, onMessage, hcl, hg, hp, acceptMove, timerImpliesGame]
            | true =>
              refine ⟨?_, ?_, ?_⟩
              · intro u hu
                simp [step, onMessage, hcl, hg, hp, acceptMove] at hu ⊢
                rcases hu with h1 | h1
                · have := hfresh u (mem_clearTimer h1)
                  omega
                · omega
              · simp [step, onMessage, hcl, hg, hp, acceptMove, storedTimer, hpend2,
                      clearTimer_toList]
              · simp [step, onMessage, hcl, hg, hp, acceptMove, timerImpliesGame]
  | fire t now =>
    by_cases hm : t ∈ st.pending
    · cases hcl : st.client with
      | none =>
        exfalso
        rw [hpend] at hm
        simp [storedTimer, hcl] at hm
      | some cs =>
        have hpend2 : st.pending = cs.inactivityTimer.toList := by
          rw [hpend]; simp [storedTimer, hcl]
        have hmm : t ∈ cs.inactivityTimer.toList := by rw [← hpend2]; exact hm
        have hts : cs.inactivityTimer = some t := toList_mem_eq hmm
        have himp2 : (!cs.inactivityTimer.isSome || cs.currentGameId.isSome) = true := by
          have h0 := himp
          simp only [timerImpliesGame, hcl] at h0
          exact h0
        have hgs : cs.currentGameId.isSome = true := by
          rcases Bool.or_eq_true_iff.mp himp2 with h1 | h1
          · rw [hts] at h1; simp at h1
          · exact h1
        obtain ⟨gid, hg⟩ := Option.isSome_iff_exists.mp hgs
        have hpl : st.pending = [t] := by rw [hpend2, hts]; rfl
        refine ⟨?_, ?_, ?_⟩
        · intro u hu
          exfalso
          simp [step, fireTimer, hm, timerCallback, endGame, hcl, hg] at hu
          have h2 := List.mem_filter.mp (mem_clearTimer hu)
          rw [hpl] at h2
          have h3 : u = t := by simpa using h2.1
          rw [h3] at h2
          simp at h2
        · simp [step, fireTimer, hm, timerCallback, endGame, hcl, hg, storedTimer,
                clearedClient, hpl, hts, clearTimer]
        · simp [step, fireTimer, hm, timerCallback, endGame, hcl, hg, timerImpliesGame,
                clearedClient]
    · simp only [step, fireTimer, hm, if_false]
      exact ⟨hfresh, hpend, himp⟩
  | close =>
    cases hcl : st.client with
    | none =>
      simp only [step, onClose, hcl]
      exact ⟨hfresh, hpend, himp⟩
    | some cs =>
      have hpend2 : st.pending = cs.inactivityTimer.toList := by
        rw [hpend]; simp [storedTimer, hcl]
      refine ⟨?_, ?_, ?_⟩
      · intro u hu
        simp [step, onClose, hcl] at hu ⊢
        exact hfresh u (mem_clearTimer hu)
      · simp [step, onClose, hcl, storedTimer, hpend2, clearTimer_toList]
      · simp [step, onClose, hcl, timerImpliesGame]
  | wsError =>
    cases hcl : st.client with
    | none =>
      simp only [step, onWsError, hcl]
      exact ⟨hfresh, hpend, himp⟩
    | some cs =>
      have hpend2 : st.pending = cs.inactivityTimer.toList := by
        rw [hpend]; simp [storedTimer, hcl]
      refine ⟨?_, ?_, ?_⟩
      · intro u hu
        simp [step, onWsError, hcl] at hu ⊢
        exact hfresh u (mem_clearTimer hu)
      · simp [step, onWsError, hcl, storedTimer, hpend2, clearTimer_toList]
      · simp [step, onWsError, hcl, timerImpliesGame]

theorem fireTimer_not_pending (st : SysState) (t now : Nat) (h : t ∉ st.pending) :
    fireTimer st t now = (st, []) := by
  simp [fireTimer, h]

theorem step_no_readd (st : SysState) (e : Event) (t : Nat)
    (hlt : t < st.nextTimer) (h : t ∉ st.pending) :
    t ∉ (step st e).1.pending ∧ st.nextTimer ≤ (step st e).1.nextTimer := by
  cases e with
  | message m dbReady insertOk now =>
    cases hcl : st.client with
    | none =>
      refine ⟨?_, ?_⟩
      · simpa [step, onMessage, hcl] using h
      · simp [step, onMessage, hcl]
    | some cs =>
      cases m with
      | unparseable =>
        refine ⟨?_, ?_⟩
        · simpa [step, onMessage, hcl] using h
        · simp [step, onMessage, hcl]
      | noCommand =>
        refine ⟨?_, ?_⟩
        · simpa [step, onMessage, hcl] using h
        · simp [step, onMessage, hcl]
      | withCommand s =>
        cases hg : cs.currentGameId with
        | none =>
          cases hp : parseCmd s with
          | none =>
            refine ⟨?_, ?_⟩
            · simpa [step, onMessage, hcl, hg, hp] using h
            · simp [step, onMessage, hcl, hg, hp]
          | some c =>
            cases dbReady with
            | false =>
              refine ⟨?_, ?_⟩
              · simpa [step, onMessage, hcl, hg, hp, acceptMove] using h
              · simp [step, onMessage, hcl, hg, hp, acceptMove]
            | true =>
              refine ⟨?_, ?_⟩
              · intro hmem
                simp [step, onMessage, hcl, hg, hp, acceptMove] at hmem
                rcases hmem with h1 | h1
                · exact h (mem_clearTimer h1)
                · omega
              · simp [step, onMessage, hcl, hg, hp, acceptMove]
        | some gid =>
          cases hp : parseCmd s with
          | none =>
            refine ⟨?_, ?_⟩
            · simpa [step, onMessage, hcl, hg, hp] using h
            · simp [step, onMessage, hcl, hg, hp]
          | some c =>
            cases dbReady with
            | false =>
              refine ⟨?_, ?_⟩
              · simpa [step, onMessage, hcl, hg, hp, acceptMove] using h
              · simp [step, onMessage, hcl, hg, hp, acceptMove]
            | true =>
              refine ⟨?_, ?_⟩
              · intro hmem
                simp [step, onMessage, hcl, hg, hp, acceptMove] at hmem
                rcases hmem with h1 | h1
                · exact h (mem_clearTimer h1)
                · omega
              · simp [step, onMessage, hcl, hg, hp, acceptMove]
  | fire u now =>
    refine ⟨?_, ?_⟩
    · intro hmem
      exact h (fireTimer_pending_subset hmem)
    · by_cases hm : u ∈ st.pending
      · simp only [step, fireTimer, hm, if_true, timerCallback]
        rw [endGame_nextTimer]
      · simp [step, fireTimer, hm]
  | close =>
    cases hcl : st.client with
    | none =>
      refine ⟨?_, ?_⟩
      · simpa [step, onClose, hcl] using h
      · simp [step, onClose, hcl]
    | some cs =>
      refine ⟨?_, ?_⟩
      · intro hmem
        simp [step, onClose, hcl] at hmem
        exact h (mem_clearTimer hmem)
      · simp [step, onClose, hcl]
  | wsError =>
    cases hcl : st.client with
    | none =>
      refine ⟨?_, ?_⟩
      · simpa [step, onWsError, hcl] using h
      · simp [step, onWsError, hcl]
    | some cs =>
      refine ⟨?_, ?_⟩
      · intro hmem
        simp [step, onWsError, hcl] at hmem
        exact h (mem_clearTimer hmem)
      · simp [step, onWsError, hcl]

theorem timerInv_length (st : SysState) (h : timerInv st) : st.pending.length ≤ 1 := by
  rw [h.2.1]
  unfold storedTimer
  cases st.client with
  | none => simp
  | some cs => cases ht : cs.inactivityTimer <;> simp [ht]

/-- The locals the message handler's continuation captures across the
`await movementsCollection.insertOne(movementData)` at line 194: the
already-computed new position (for the reply at lines 200-204) and the
document built at lines 180-187. -/
structure PendingInsert where
  newPos : Pos
  doc : MovementRecord
deriving DecidableEq

/-- Connection state in the await-faithful model.  `record` is the
client-state *object* of lines 56-65 — suspended handlers keep referencing
it even after `clients.delete(ws)`, so it outlives `registered`, which
models membership in the `clients` map.  `inflight` holds the
continuations of message handlers currently suspended at line 194, in
arrival order; their inserts may settle in any order. -/
structure SysState2 where
  record : ClientState
  registered : Bool
  pending : List Nat
  nextTimer : Nat
  inflight : List PendingInsert
deriving DecidableEq

/-- Events of the await-faithful model: an inbound message (its insert
outcome is *not* decided here — the turn ends at the `await`), the
settling of the i-th outstanding insert (resuming that handler), a
timeout firing, socket close, socket error. -/
inductive Event2 where
  | message (m : InMsg) (dbReady : Bool) (now : Nat)
  | resolve (i : Nat) (insertOk : Bool)
  | fire (t : Nat) (now : Nat)
  | close
  | wsError
deriving DecidableEq

/-- `endGame` (lines 74-124) on the await-faithful state:
`clients.get(wsClient)` yields the record only while registered. -/
def endGame2 (st : SysState2) (now : Nat) : SysState2 × List Output :=
  if st.registered then
    match st.record.currentGameId with
    | none => (st, [])
    | some gid =>
      let pending1 := clearTimer st.pending st.record.inactivityTimer
      let rep := endReport st.record
      let cs1 := clearedClient st.record
      ({ st with record := cs1, pending := pending1 },
       [rep.2,
        Output.send (OutMsg.gameOver gid rep.1 st.record.gameStartTime now),
        Output.send (OutMsg.positionUpdate cs1.currentPosition.x cs1.currentPosition.y)])
  else (st, [])

/-- The `setTimeout` callback (lines 211-214) in the await-faithful
model. -/
def timerCallback2 (st : SysState2) (now : Nat) : SysState2 × List Output :=
  let r := endGame2 st now
  (r.1, Output.log LogLevel.warn "Se detecto inactividad en el cliente" :: r.2)

/-- Timeout delivery in the await-faithful model: a non-pending id does
nothing; a pending id is consumed and its callback runs. -/
def fireTimer2 (st : SysState2) (t : Nat) (now : Nat) : SysState2 × List Output :=
  if t ∈ st.pending then
    timerCallback2 { st with pending := st.pending.filter (fun u => u != t) } now
  else (st, [])

/-- The *synchronous segment* of `ws.on('message')` (lines 126-193): runs
up to the `await` at line 194 and no further.  Malformed messages, unknown
commands and the collection-unavailable return all complete here; an
accepted command with the collection available applies the move (lines
152-178), builds the document (180-187) and suspends — its continuation
joins `inflight`, and crucially the old inactivity timeout is still
pending, since `clearTimeout` only happens at line 210, after the
`await`. -/
def onMessage2 (st : SysState2) (m : InMsg) (dbReady : Bool) (now : Nat) :
    SysState2 × List Output :=
  if st.registered then
    match m with
    | InMsg.unparseable =>
        (st, [Output.log LogLevel.error "Error procesando el mensaje del cliente",
              Output.send (OutMsg.errorMsg "Ocurrio un error procesando tu comando.")])
    | InMsg.noCommand =>
        (st, [Output.log LogLevel.error "Error procesando el mensaje del cliente",
              Output.send (OutMsg.errorMsg "Ocurrio un error procesando tu comando.")])
    | InMsg.withCommand s =>
      let recvLog := Output.log LogLevel.info "Comando recibido de cliente"
      let opened :=
        match st.record.currentGameId with
        | none =>
            ({ st.record with
                 currentGameId :=
                   some ("G_" ++ toString now ++ "_" ++ st.record.clientId.take 4),
                 startPosition := some st.record.currentPosition,
                 gameStartTime := some now },
             [recvLog, Output.log LogLevel.info "Inicio de nueva partida"])
        | some _ => (st.record, [recvLog])
      let cs1 := opened.1
      let logs := opened.2
      match parseCmd s with
      | none =>
          ({ st with record := cs1 },
           logs ++
             [Output.log LogLevel.warn "Comando no reconocido recibido del cliente",
              Output.send (OutMsg.errorMsg ("Comando no reconocido: " ++ s))])
      | some c =>
        let newPos := applyCmd cs1.currentPosition c
        let cs2 := { cs1 with currentPosition := newPos, lastPosition := some newPos,
                              lastMoveTime := some now }
        if dbReady then
          ({ st with record := cs2,
                     inflight := st.inflight ++
                       [{ newPos := newPos,
                          doc := { gameId := cs2.currentGameId, clientId := cs2.clientId,
                                   command := c, x := newPos.x, y := newPos.y,
                                   timestamp := now } }] },
           logs)
        else
          ({ st with record := cs2 },
           logs ++ [Output.log LogLevel.error "coleccion de movimientos no inicializada"])
  else
    (st, [Output.log LogLevel.error "mensaje de un cliente no registrado"])

/-- The post-`await` remainder of the message handler (lines 195-214), run
when its insert settles: log a rejection (or count the resolved insert as
persisted), send the `positionUpdate` captured before the suspension, then
`clearTimeout(clientState.inactivityTimer)` — the field as it stands *now*,
possibly rewritten by an `endGame` that ran mid-await — and arm and store a
fresh timeout. -/
def msgResume (st : SysState2) (pi : PendingInsert) (insertOk : Bool) :
    SysState2 × List Output :=
  let persistOut :=
    if insertOk then [Output.persist pi.doc]
    else [Output.log LogLevel.error "Error al guardar el movimiento en la base de datos"]
  let pending1 := clearTimer st.pending st.record.inactivityTimer
  let tid := st.nextTimer
  ({ st with record := { st.record with inactivityTimer := some tid },
             pending := pending1 ++ [tid], nextTimer := st.nextTimer + 1 },
   persistOut ++
     [Output.send (OutMsg.positionUpdate pi.newPos.x pi.newPos.y),
      Output.log LogLevel.info "Posicion actualizada enviada al cliente"])

/-- Settling of the i-th outstanding insert: resume that handler (no-op if
there is no such outstanding insert). -/
def resolveInsert (st : SysState2) (i : Nat) (insertOk : Bool) :
    SysState2 × List Output :=
  match st.inflight[i]? with
  | none => (st, [])
  | some pi => msgResume { st with inflight := st.inflight.eraseIdx i } pi insertOk

/-- `ws.on('close')` (lines 226-237) in the await-faithful model: clear
the stored timeout, leave the map.  The record object itself survives for
any suspended handlers. -/
def onClose2 (st : SysState2) : SysState2 × List Output :=
  if st.registered then
    ({ st with registered := false,
               pending := clearTimer st.pending st.record.inactivityTimer },
     [Output.log LogLevel.info "Cliente desconectado"])
  else (st, [Output.log LogLevel.warn "Un cliente no registrado se ha desconectado"])

/-- `ws.on('error')` (lines 239-249) in the await-faithful model. -/
def onWsError2 (st : SysState2) : SysState2 × List Output :=
  if st.registered then
    ({ st with registered := false,
               pending := clearTimer st.pending st.record.inactivityTimer },
     [Output.log LogLevel.error "Error en WebSocket del cliente"])
  else (st, [Output.log LogLevel.error "Error en WebSocket del cliente"])

/-- One event of the await-faithful model. -/
def step2 (st : SysState2) : Event2 → SysState2 × List Output
  | Event2.message m dbReady now => onMessage2 st m dbReady now
  | Event2.resolve i insertOk => resolveInsert st i insertOk
  | Event2.fire t now => fireTimer2 st t now
  | Event2.close => onClose2 st
  | Event2.wsError => onWsError2 st

/-- Timer bookkeeping invariant of the await-faithful model: every pending
id is below the fresh counter, and the pending set is empty or exactly the
singleton of the id the record currently stores.  (Unlike the one-turn
model, a stored id may be non-pending here — e.g. right after a mid-await
`endGame` consumed it.) -/
def timerInv2 (st : SysState2) : Prop :=
  (∀ t ∈ st.pending, t < st.nextTimer) ∧
  (st.pending = [] ∨ ∃ t, st.pending = [t] ∧ st.record.inactivityTimer = some t)

theorem clearTimer_nil (o : Option Nat) : clearTimer [] o = [] := by
  cases o <;> simp [clearTimer]

theorem clearTimer_single {p : List Nat} {o : Option Nat}
    (h : p = [] ∨ ∃ t, p = [t] ∧ o = some t) : clearTimer p o = [] := by
  rcases h with h | ⟨t, hp, ht⟩
  · rw [h]; exact clearTimer_nil o
  · rw [hp, ht]; simp [clearTimer]

theorem endGame2_nextTimer (st : SysState2) (now : Nat) :
    (endGame2 st now).1.nextTimer = st.nextTimer := by
  unfold endGame2
  cases hr : st.registered with
  | false => simp
  | true => cases hg : st.record.currentGameId <;> simp [hg]

theorem endGame2_pending_subset {st : SysState2} {now t : Nat}
    (h : t ∈ (endGame2 st now).1.pending) : t ∈ st.pending := by
  unfold endGame2 at h
  cases hr : st.registered with
  | false => simp [hr] at h; exact h
  | true =>
    cases hg : st.record.currentGameId with
    | none => simp [hr, hg] at h; exact h
    | some gid =>
      simp [hr, hg] at h
      exact mem_clearTimer h

theorem fireTimer2_pending_subset {st : SysState2} {u now t : Nat}
    (h : t ∈ (fireTimer2 st u now).1.pending) : t ∈ st.pending := by
  unfold fireTimer2 at h
  by_cases hm : u ∈ st.pending
  · simp only [hm, if_true, timerCallback2] at h
    have h2 := endGame2_pending_subset h
    exact (List.mem_filter.mp h2).1
  · simp only [hm, if_false] at h
    exact h

theorem fireTimer2_pending_result {st : SysState2} {t : Nat} (now : Nat)
    (hp0 : st.pending = [t]) :
    (fireTimer2 st t now).1.pending = [] := by
  have hm : t ∈ st.pending := by rw [hp0]; simp
  have hfil : st.pending.filter (fun u => u != t) = [] := by rw [hp0]; simp
  unfold fireTimer2 timerCallback2 endGame2
  cases hr : st.registered with
  | false => simp [hm, hfil]
  | true =>
    cases hg : st.record.currentGameId with
    | none => simp [hm, hg, hfil]
    | some gid => simp [hm, hg, hfil, clearTimer_nil]

theorem fireTimer2_nextTimer (st : SysState2) (t now : Nat) :
    (fireTimer2 st t now).1.nextTimer = st.nextTimer := by
  unfold fireTimer2
  by_cases hm : t ∈ st.pending
  · simp only [hm, if_true, timerCallback2]
    rw [endGame2_nextTimer]
  · simp [hm]

theorem timerInv2_step (st : SysState2) (e : Event2) (h : timerInv2 st) :
    timerInv2 (step2 st e).1 := by
  obtain ⟨hfresh, hdisj⟩ := h
  cases e with
  | message m dbReady now =>
    cases hr : st.registered with
    | false =>
      simp only [step2, onMessage2, hr, if_false]
      exact ⟨hfresh, hdisj⟩
    | true =>
      cases m with
      | unparseable =>
        simp only [step2, onMessage2, hr, if_true]
        exact ⟨hfresh, hdisj⟩
      | noCommand =>
        simp only [step2, onMessage2, hr, if_true]
        exact ⟨hfresh, hdisj⟩
      | withCommand s =>
        cases hg : st.record.currentGameId with
        | none =>
          cases hp : parseCmd s with
          | none =>
            refine ⟨?_, ?_⟩
            · simpa [step2, onMessage2, hr, hg, hp] using hfresh
            · simpa [step2, onMessage2, hr, hg, hp] using hdisj
          | some c =>
            cases dbReady with
            | false =>
              refine ⟨?_, ?_⟩
              · simpa [step2, onMessage2, hr, hg, hp] using hfresh
              · simpa [step2, onMessage2, hr, hg, hp] using hdisj
            | true =>
              refine ⟨?_, ?_⟩
              · simpa [step2, onMessage2, hr, hg, hp] using hfresh
              · simpa [step2, onMessage2, hr, hg, hp] using hdisj
        | some gid =>
          cases hp : parseCmd s with
          | none =>
            refine ⟨?_, ?_⟩
            · simpa [step2, onMessage2, hr, hg, hp] using hfresh
            · simpa [step2, onMessage2, hr, hg, hp] using hdisj
          | some c =>
            cases dbReady with
            | false =>
              refine ⟨?_, ?_⟩
              · simpa [step2, onMessage2, hr, hg, hp] using hfresh
              · simpa [step2, onMessage2, hr, hg, hp] using hdisj
            | true =>
              refine ⟨?_, ?_⟩
              · simpa [step2, onMessage2, hr, hg, hp] using hfresh
              · simpa [step2, onMessage2, hr, hg, hp] using hdisj
  | resolve i insertOk =>
    cases hq : st.inflight[i]? with
    | none =>
      simp only [step2, resolveInsert, hq]
      exact ⟨hfresh, hdisj⟩
    | some pi =>
      have hcc : clearTimer st.pending st.record.inactivityTimer = [] :=
        clearTimer_single hdisj
      refine ⟨?_, ?_⟩
      · intro u hu
        simp [step2, resolveInsert, hq, msgResume, hcc] at hu ⊢
        omega
      · refine Or.inr ⟨st.nextTimer, ?_, ?_⟩ <;>
          simp [step2, resolveInsert, hq, msgResume, hcc]
  | fire t now =>
    by_cases hm : t ∈ st.pending
    · rcases hdisj with hnil | ⟨t0, hp0, hs0⟩
      · rw [hnil] at hm
        simp at hm
      · have ht0 : t = t0 := by rw [hp0] at hm; simpa using hm
        have hpt : st.pending = [t] := by rw [ht0]; exact hp0
        have hres : (fireTimer2 st t now).1.pending = [] :=
          fireTimer2_pending_result now hpt
        refine ⟨?_, ?_⟩
        · intro u hu
          simp only [step2] at hu
          rw [hres] at hu
          simp at hu
        · simp only [step2]
          exact Or.inl hres
    · simp only [step2, fireTimer2, hm, if_false]
      exact ⟨hfresh, hdisj⟩
  | close =>
    cases hr : st.registered with
    | false =>
      simp only [step2, onClose2, hr, if_false]
      exact ⟨hfresh, hdisj⟩
    | true =>
      have hcc : clearTimer st.pending st.record.inactivityTimer = [] :=
        clearTimer_single hdisj
      refine ⟨?_, ?_⟩
      · intro u hu
        simp [step2, onClose2, hr, hcc] at hu
      · left
        simp [step2, onClose2, hr, hcc]
  | wsError =>
    cases hr : st.registered with
    | false =>
      simp only [step2, onWsError2, hr, if_false]
      exact ⟨hfresh, hdisj⟩
    | true =>
      have hcc : clearTimer st.pending st.record.inactivityTimer = [] :=
        clearTimer_single hdisj
      refine ⟨?_, ?_⟩
      · intro u hu
        simp [step2, onWsError2, hr, hcc] at hu
      · left
        simp [step2, onWsError2, hr, hcc]

theorem fireTimer2_not_pending (st : SysState2) (t now : Nat) (h : t ∉ st.pending) :
    fireTimer2 st t now = (st, []) := by
  simp [fireTimer2, h]

theorem step2_no_readd (st : SysState2) (e : Event2) (t : Nat)
    (hlt : t < st.nextTimer) (h : t ∉ st.pending) :
    t ∉ (step2 st e).1.pending ∧ st.nextTimer ≤ (step2 st e).1.nextTimer := by
  cases e with
  | message m dbReady now =>
    cases hr : st.registered with
    | false =>
      refine ⟨?_, ?_⟩
      · simpa [step2, onMessage2, hr] using h
      · simp [step2, onMessage2, hr]
    | true =>
      cases m with
      | unparseable =>
        refine ⟨?_, ?_⟩
        · simpa [step2, onMessage2, hr] using h
        · simp [step2, onMessage2, hr]
      | noCommand =>
        refine ⟨?_, ?_⟩
        · simpa [step2, onMessage2, hr] using h
        · simp [step2, onMessage2, hr]
      | withCommand s =>
        cases hg : st.record.currentGameId with
        | none =>
          cases hp : parseCmd s with
          | none =>
            refine ⟨?_, ?_⟩
            · simpa [step2, onMessage2, hr, hg, hp] using h
            · simp [step2, onMessage2, hr, hg, hp]
          | some c =>
            cases dbReady with
            | false =>
              refine ⟨?_, ?_⟩
              · simpa [step2, onMessage2, hr, hg, hp] using h
              · simp [step2, onMessage2, hr, hg, hp]
            | true =>
              refine ⟨?_, ?_⟩
              · simpa [step2, onMessage2, hr, hg, hp] using h
              · simp [step2, onMessage2, hr, hg, hp]
        | some gid =>
          cases hp : parseCmd s with
          | none =>
            refine ⟨?_, ?_⟩
            · simpa [step2, onMessage2, hr, hg, hp] using h
            · simp [step2, onMessage2, hr, hg, hp]
          | some c =>
            cases dbReady with
            | false =>
              refine ⟨?_, ?_⟩
              · simpa [step2, onMessage2, hr, hg, hp] using h
              · simp [step2, onMessage2, hr, hg, hp]
            | true =>
              refine ⟨?_, ?_⟩
              · simpa [step2, onMessage2, hr, hg, hp] using h
              · simp [step2, onMessage2, hr, hg, hp]
  | resolve i insertOk =>
    cases hq : st.inflight[i]? with
    | none =>
      refine ⟨?_, ?_⟩
      · simpa [step2, resolveInsert, hq] using h
      · simp [step2, resolveInsert, hq]
    | some pi =>
      refine ⟨?_, ?_⟩
      · intro hmem
        simp [step2, resolveInsert, hq, msgResume] at hmem
        rcases hmem with h1 | h1
        · exact h (mem_clearTimer h1)
        · omega
      · simp [step2, resolveInsert, hq, msgResume]
  | fire u now =>
    refine ⟨?_, ?_⟩
    · intro hmem
      exact h (fireTimer2_pending_subset hmem)
    · simp only [step2]
      rw [fireTimer2_nextTimer]
  | close =>
    cases hr : st.registered with
    | false =>
      refine ⟨?_, ?_⟩
      · simpa [step2, onClose2, hr] using h
      · simp [step2, onClose2, hr]
    | true =>
      refine ⟨?_, ?_⟩
      · intro hmem
        simp [step2, onClose2, hr] at hmem
        exact h (mem_clearTimer hmem)
      · simp [step2, onClose2, hr]
  | wsError =>
    cases hr : st.registered with
    | false =>
      refine ⟨?_, ?_⟩
      · simpa [step2, onWsError2, hr] using h
      · simp [step2, onWsError2, hr]
    | true =>
      refine ⟨?_, ?_⟩
      · intro hmem
        simp [step2, onWsError2, hr] at hmem
        exact h (mem_clearTimer hmem)
      · simp [step2, onWsError2, hr]

theorem timerInv2_length (st : SysState2) (h : timerInv2 st) :
    st.pending.length ≤ 1 := by
  rcases h.2 with h1 | ⟨t, h1, _⟩ <;> rw [h1] <;> simp

theorem resumeRearm (st : SysState2) (i : Nat) (pi : PendingInsert) (insertOk : Bool)
    (hinv : timerInv2 st) (hq : st.inflight[i]? = some pi) :
    (resolveInsert st i insertOk).1.pending = [st.nextTimer] ∧
    (resolveInsert st i insertOk).1.record.inactivityTimer = some st.nextTimer ∧
    ∀ t ∈ st.pending, t ∉ (resolveInsert st i insertOk).1.pending := by
  obtain ⟨hfresh, hdisj⟩ := hinv
  have hcc : clearTimer st.pending st.record.inactivityTimer = [] :=
    clearTimer_single hdisj
  refine ⟨?_, ?_, ?_⟩
  · simp [resolveInsert, hq, msgResume, hcc]
  · simp [resolveInsert, hq, msgResume]
  · intro t htp
    have := hfresh t htp
    simp [resolveInsert, hq, msgResume, hcc]
    omega

/-- A concrete mid-session state of the await-faithful model: game open,
deadline 0 armed and pending, no outstanding insert. -/
def raceStart : SysState2 :=
  { record := sampleClient, registered := true, pending := [0], nextTimer := 1,
    inflight := [] }

/-- The state right after the synchronous segment of an accepted `up` at
`raceStart`: suspended at the `await`, move applied, old deadline still
pending. -/
def raceMid : SysState2 := (onMessage2 raceStart (InMsg.withCommand "up") true 9).1

/-- C2 counterexample, the mid-`await` race: an accepted `up` arrives
strictly before the pending deadline 0 and its synchronous segment applies
the move (position (3,5)) and suspends at the awaited insert — with the
deadline *not* cancelled (line 210 only runs after the `await`).  The
deadline then fires mid-handler and emits a `gameOver` (distance report
(3-1)^2+(5-2)^2 = 13) after the later accepted move, the ghost the claim
rules out: the deadline was neither cancelled on arrival nor prevented
from firing afterwards. -/
theorem ghostGameOverMidAwait_cex :
    raceMid.pending = [0] ∧
    raceMid.record.inactivityTimer = some 0 ∧
    raceMid.record.currentPosition = { x := 3, y := 5 } ∧
    raceMid.inflight.length = 1 ∧
    sends (fireTimer2 raceMid 0 20).2 =
      [OutMsg.gameOver "G_3_abcd" 13 (some 3) 20, OutMsg.positionUpdate 0 0] :=
  ⟨rfl, rfl, rfl, rfl, rfl⟩

/-- C2 as amended for the await-faithful model: an accepted command does
not cancel the pending deadline on arrival — the cancel-and-rearm runs
only when its awaited insert settles (and not at all when the collection
is unavailable), so until then the old deadline stays pending and may
fire (see the counterexample).  What does hold: (1) when an outstanding
insert settles, the resume leaves exactly one pending deadline — the
fresh id, now stored in the record — and every previously pending id is
gone; (2) a non-pending (cancelled or consumed) deadline id never fires —
its delivery is a complete no-op; (3) the timer bookkeeping invariant is
preserved by every event, and (4) a cancelled id can never re-enter the
pending set, nor the fresh counter decrease; (5) under the invariant at
most one inactivity window is pending for the connection at any time. -/
theorem resumeRearmsDeadline :
    (∀ st i pi insertOk, timerInv2 st → st.inflight[i]? = some pi →
       (resolveInsert st i insertOk).1.pending = [st.nextTimer] ∧
       (resolveInsert st i insertOk).1.record.inactivityTimer = some st.nextTimer ∧
       ∀ t ∈ st.pending, t ∉ (resolveInsert st i insertOk).1.pending) ∧
    (∀ st t now, t ∉ st.pending → fireTimer2 st t now = (st, [])) ∧
    (∀ st e, timerInv2 st → timerInv2 (step2 st e).1) ∧
    (∀ st e t, t < st.nextTimer → t ∉ st.pending →
       t ∉ (step2 st e).1.pending ∧ st.nextTimer ≤ (step2 st e).1.nextTimer) ∧
    (∀ st, timerInv2 st → st.pending.length ≤ 1) :=
  ⟨fun st i pi insertOk hinv hq => resumeRearm st i pi insertOk hinv hq,
   fireTimer2_not_pending,
   timerInv2_step,
   fun st e t hlt h => step2_no_readd st e t hlt h,
   timerInv2_length⟩

/-- Witness for `resumeRearmsDeadline` (first conjunct) at the concrete
suspended state `raceMid`: the insert rejects, yet the resume replaces the
pending deadline 0 by the fresh deadline 1. -/
theorem resumeRearmsDeadline_w :
    (resolveInsert raceMid 0 false).1.pending = [raceMid.nextTimer] ∧
    (resolveInsert raceMid 0 false).1.record.inactivityTimer = some raceMid.nextTimer ∧
    ∀ t ∈ raceMid.pending, t ∉ (resolveInsert raceMid 0 false).1.pending :=
  resumeRearmsDeadline.1 raceMid 0
    { newPos := { x := 3, y := 5 },
      doc := { gameId := some "G_3_abcd", clientId := "abcd-efgh", command := Cmd.up,
               x := 3, y := 5, timestamp := 9 } }
    false ⟨by decide, Or.inr ⟨0, rfl, rfl⟩⟩ rfl

end WsGame
